import Mathlib

/- Verification development for the GitHub activity pattern analyzer
   (backend/analyzer.py, backend/insights.py, backend/ml_model.py,
   backend/utils.py, backend/app.py), as a shallow embedding: Python dicts
   that are always fully populated become structures, dicts that may be
   empty become Option, Counter and defaultdict become insertion-ordered
   association lists, Python float arithmetic on the computed ratios is
   modelled by exact rational arithmetic, and the fatal ValueError raised
   by datetime.strptime is modelled by an Except error value. -/

set_option maxRecDepth 4000

/- Data model: an event as the analyzer reads it.  The code accesses
   event['type'], event['created_at'], event.get('repo', {}).get('name')
   and e.get('payload', {}).get('commits', []); an absent repo name is
   Option.none and the absent payload/commits chain collapses to []. -/
structure Event where
  type : String
  created_at : String
  repoName : Option String
  payloadCommits : List String
deriving Repr, DecidableEq

structure Repository where
  name : String
  stargazers_count : Nat
  forks_count : Nat
  language : Option String
  updated_at : String
deriving Repr, DecidableEq

/- Contributions as consumed by the analyzer: only len(active_days) is read. -/
structure Contributions where
  active_days : List String
deriving Repr, DecidableEq

structure UserData where
  events : List Event
  repositories : List Repository
  contributions : Contributions
deriving Repr, DecidableEq

/- Insertion-ordered frequency map: collections.Counter / defaultdict(int)
   insert a new key at the end and keep the position of an existing key. -/
def bump {α : Type} [DecidableEq α] (k : α) : List (α × Nat) → List (α × Nat)
  | [] => [(k, 1)]
  | (k1, n) :: rest => if k1 = k then (k1, n + 1) :: rest else (k1, n) :: bump k rest

def countAll {α : Type} [DecidableEq α] (keys : List α) : List (α × Nat) :=
  keys.foldl (fun acc k => bump k acc) []

/- Python max(items, key=lambda x: x[1]): keeps the current best and replaces
   it only on a strictly greater key, so the first maximal item wins. -/
def pickMax {α : Type} (best y : α × Nat) : α × Nat :=
  if y.2 > best.2 then y else best

def pyMaxBySnd {α : Type} : List (α × Nat) → Option (α × Nat)
  | [] => none
  | x :: xs => some (xs.foldl pickMax x)

/- Python sorted(xs, key=key, reverse=True): a stable sort, descending on the
   key, ties keeping the original order.  Modelled as insertion sort folded
   from the right; an element is placed before the first position whose key
   is not strictly greater than its own. -/
def insertDesc {α β : Type} [LinearOrder β] (key : α → β) (x : α) : List α → List α
  | [] => [x]
  | y :: ys => if key x < key y then y :: insertDesc key x ys else x :: y :: ys

def sortDesc {α β : Type} [LinearOrder β] (key : α → β) : List α → List α
  | [] => []
  | x :: xs => insertDesc key x (sortDesc key xs)

/- Timestamp parsing.  datetime.strptime(s, '%Y-%m-%dT%H:%M:%SZ') matches s
   against the CPython _strptime regex (%Y -> four digits, %m -> 1[0-2]|0[1-9]|[1-9],
   %d -> 3[01]|[12]d|0[1-9]|[1-9], %H -> 2[0-3]|[0-1]d|d, %M -> [0-5]d|d,
   %S -> 6[01]|[0-5]d|d, with d one digit) with ordered-alternative
   backtracking and re.IGNORECASE on the literal T and Z,
   requires the whole string to be consumed, and then the
   datetime constructor validates year >= 1, the day against the month
   length and second <= 59.  Digits are modelled as ASCII digits. -/
structure Timestamp where
  year : Nat
  month : Nat
  day : Nat
  hour : Nat
  minute : Nat
  second : Nat
deriving Repr, DecidableEq

def matchDigitRange (lo hi : Nat) : List Char → Option (Nat × List Char)
  | c :: rest =>
      if c.isDigit ∧ lo ≤ c.toNat - 48 ∧ c.toNat - 48 ≤ hi then
        some (c.toNat - 48, rest)
      else none
  | [] => none

def matchTwo (a b c d : Nat) (s : List Char) : Option (Nat × List Char) :=
  match matchDigitRange a b s with
  | some (d1, r1) =>
      match matchDigitRange c d r1 with
      | some (d2, r2) => some (10 * d1 + d2, r2)
      | none => none
  | none => none

def matchYear (s : List Char) : Option (Nat × List Char) :=
  match matchTwo 0 9 0 9 s with
  | some (hi, r1) =>
      match matchTwo 0 9 0 9 r1 with
      | some (lo, r2) => some (100 * hi + lo, r2)
      | none => none
  | none => none

/- Ordered regex alternatives with backtracking into the continuation, as the
   regex engine does for the alternation patterns above. -/
def tryAlts (k : Nat → List Char → Option Timestamp) :
    List (List Char → Option (Nat × List Char)) → List Char → Option Timestamp
  | [], _ => none
  | a :: rest, s =>
      match a s with
      | some (v, s1) =>
          match k v s1 with
          | some t => some t
          | none => tryAlts k rest s
      | none => tryAlts k rest s

def expectChar (c : Char) (s : List Char) (k : List Char → Option Timestamp) :
    Option Timestamp :=
  match s with
  | c1 :: rest => if c1.toLower = c.toLower then k rest else none
  | [] => none

def monthAlts : List (List Char → Option (Nat × List Char)) :=
  [matchTwo 1 1 0 2, matchTwo 0 0 1 9, matchDigitRange 1 9]

def dayAlts : List (List Char → Option (Nat × List Char)) :=
  [matchTwo 3 3 0 1, matchTwo 1 2 0 9, matchTwo 0 0 1 9, matchDigitRange 1 9]

def hourAlts : List (List Char → Option (Nat × List Char)) :=
  [matchTwo 2 2 0 3, matchTwo 0 1 0 9, matchDigitRange 0 9]

def minuteAlts : List (List Char → Option (Nat × List Char)) :=
  [matchTwo 0 5 0 9, matchDigitRange 0 9]

def secondAlts : List (List Char → Option (Nat × List Char)) :=
  [matchTwo 6 6 0 1, matchTwo 0 5 0 9, matchDigitRange 0 9]

def matchFormat (s : List Char) : Option Timestamp :=
  match matchYear s with
  | none => none
  | some (y, s1) =>
      expectChar '-' s1 fun s2 =>
      tryAlts (fun mo s3 =>
        expectChar '-' s3 fun s4 =>
        tryAlts (fun dy s5 =>
          expectChar 'T' s5 fun s6 =>
          tryAlts (fun hr s7 =>
            expectChar ':' s7 fun s8 =>
            tryAlts (fun mi s9 =>
              expectChar ':' s9 fun s10 =>
              tryAlts (fun sec s11 =>
                expectChar 'Z' s11 fun s12 =>
                match s12 with
                | [] => some ⟨y, mo, dy, hr, mi, sec⟩
                | _ => none) secondAlts s10) minuteAlts s8) hourAlts s6)
          dayAlts s4) monthAlts s2

def isLeap (y : Nat) : Bool :=
  (y % 4 == 0 && !(y % 100 == 0)) || y % 400 == 0

def daysInMonth (y m : Nat) : Nat :=
  if m = 2 then (if isLeap y then 29 else 28)
  else if m = 4 ∨ m = 6 ∨ m = 9 ∨ m = 11 then 30
  else 31

/- Validation performed by the datetime constructor after the regex match. -/
def parseTimestamp (s : String) : Option Timestamp :=
  match matchFormat s.data with
  | none => none
  | some t =>
      if 1 ≤ t.year ∧ t.day ≤ daysInMonth t.year t.month ∧ t.second ≤ 59 then
        some t
      else none

/- Weekday of a Gregorian date via the rata-die day number: day 1 is
   0001-01-01, a Monday, so the day number mod 7 sends 1 to Monday and 0 to
   Sunday.  strftime('%A') renders the English weekday name. -/
def daysBeforeMonthBase (m : Nat) : Nat :=
  [0, 0, 31, 59, 90, 120, 151, 181, 212, 243, 273, 304, 334].getD m 0

def rataDie (y m d : Nat) : Nat :=
  365 * (y - 1) + (y - 1) / 4 + (y - 1) / 400 + daysBeforeMonthBase m +
    (if 2 < m ∧ isLeap y then 1 else 0) + d - (y - 1) / 100

def weekdayName (y m d : Nat) : String :=
  match rataDie y m d % 7 with
  | 0 => "Sunday"
  | 1 => "Monday"
  | 2 => "Tuesday"
  | 3 => "Wednesday"
  | 4 => "Thursday"
  | 5 => "Friday"
  | _ => "Saturday"

/- Rounding.  round(x, 2) and the .1f format round half to even; the float
   values are modelled by exact rationals, so the rounding is exact
   half-to-even on rationals. -/
def roundHalfEven (q : Rat) : Int :=
  let f := ⌊q⌋
  let frac := q - f
  if frac < 1 / 2 then f
  else if 1 / 2 < frac then f + 1
  else if f % 2 = 0 then f else f + 1

def round2 (q : Rat) : Rat := (roundHalfEven (q * 100) : Rat) / 100

def fmtFixed1 (q : Rat) : String :=
  let scaled := roundHalfEven (q * 10)
  let sign := if scaled < 0 then "-" else ""
  let n := scaled.natAbs
  sign ++ toString (n / 10) ++ "." ++ toString (n % 10)

/- PatternAnalyzer._analyze_time_patterns.  The single loop over the events
   parses each created_at (the first malformed one raises, modelled as an
   Except error carrying the offending string) and feeds the two counters. -/
structure DataFormatError where
  message : String
deriving Repr, DecidableEq

structure PeakHour where
  hour : Nat
  count : Nat
deriving Repr, DecidableEq

structure TimePatterns where
  hour_distribution : List (Nat × Nat)
  day_distribution : List (String × Nat)
  peak_hours : List PeakHour
  most_active_day : Option String
deriving Repr, DecidableEq

def buildTimeDists : List Event → List (Nat × Nat) → List (String × Nat) →
    Except DataFormatError (List (Nat × Nat) × List (String × Nat))
  | [], hd, dd => .ok (hd, dd)
  | e :: rest, hd, dd =>
      match parseTimestamp e.created_at with
      | none => .error ⟨e.created_at⟩
      | some t =>
          buildTimeDists rest (bump t.hour hd) (bump (weekdayName t.year t.month t.day) dd)

def analyze_time_patterns (events : List Event) : Except DataFormatError TimePatterns :=
  match buildTimeDists events [] [] with
  | .error e => .error e
  | .ok (hd, dd) =>
      .ok { hour_distribution := hd
            day_distribution := dd
            peak_hours := ((sortDesc (fun p => p.2) hd).take 3).map fun p => ⟨p.1, p.2⟩
            most_active_day := (pyMaxBySnd dd).map (fun p => p.1) }

/- PatternAnalyzer._analyze_activity_patterns.  most_common(1)[0] returns the
   first item with the maximal count. -/
structure ActivityPatterns where
  event_type_distribution : List (String × Nat)
  most_common_activity : Option (String × Nat)
  activity_diversity : Nat
deriving Repr, DecidableEq

def analyze_activity_patterns (events : List Event) : ActivityPatterns :=
  let d := countAll (events.map fun e => e.type)
  { event_type_distribution := d
    most_common_activity := pyMaxBySnd d
    activity_diversity := d.length }

/- PatternAnalyzer._analyze_repository_patterns.  An empty repository list
   returns the empty dict, modelled as none. -/
structure StarredEntry where
  name : String
  stars : Nat
deriving Repr, DecidableEq

structure UpdatedEntry where
  name : String
  updated : String
deriving Repr, DecidableEq

structure RepositoryPatterns where
  total_repositories : Nat
  total_stars : Nat
  total_forks : Nat
  average_stars : Rat
  most_starred_repos : List StarredEntry
  recently_updated : List UpdatedEntry
deriving Repr, DecidableEq

def analyze_repository_patterns (repositories : List Repository) :
    Option RepositoryPatterns :=
  match repositories with
  | [] => none
  | _ =>
      let total_stars := (repositories.map fun r => r.stargazers_count).sum
      let total_forks := (repositories.map fun r => r.forks_count).sum
      let most_starred := (sortDesc (fun r => r.stargazers_count) repositories).take 5
      let most_recent := (sortDesc (fun r => r.updated_at) repositories).take 5
      some { total_repositories := repositories.length
             total_stars := total_stars
             total_forks := total_forks
             average_stars :=
               if repositories.length ≠ 0 then
                 (total_stars : Rat) / (repositories.length : Rat)
               else 0
             most_starred_repos := most_starred.map fun r => ⟨r.name, r.stargazers_count⟩
             recently_updated := most_recent.map fun r => ⟨r.name, r.updated_at⟩ }

/- PatternAnalyzer._analyze_language_patterns.  The truthiness test
   `if lang:` skips both a missing language and an empty string. -/
structure LanguagePatterns where
  language_distribution : List (String × Nat)
  primary_language : Option String
  language_diversity : Nat
deriving Repr, DecidableEq

def truthyLanguage (r : Repository) : Option String :=
  match r.language with
  | some l => if l = "" then none else some l
  | none => none

def analyze_language_patterns (repositories : List Repository) : LanguagePatterns :=
  let d := countAll (repositories.filterMap truthyLanguage)
  { language_distribution := d
    primary_language := (pyMaxBySnd d).map fun p => p.1
    language_diversity := d.length }

/- PatternAnalyzer._analyze_collaboration_patterns. -/
structure CollaborationPatterns where
  collaborative_repos : List (String × Nat)
  collaboration_frequency : Nat
  most_collaborated_repo : Option String
deriving Repr, DecidableEq

def collaborationRepoOf (e : Event) : Option String :=
  if e.type = "PullRequestEvent" ∨ e.type = "IssueCommentEvent" ∨
      e.type = "PullRequestReviewEvent" then
    match e.repoName with
    | some n => if n = "" then none else some n
    | none => none
  else none

def analyze_collaboration_patterns (events : List Event) : CollaborationPatterns :=
  let d := countAll (events.filterMap collaborationRepoOf)
  { collaborative_repos := d
    collaboration_frequency := (d.map fun p => p.2).sum
    most_collaborated_repo := (pyMaxBySnd d).map fun p => p.1 }

/- PatternAnalyzer._calculate_productivity_metrics.  An empty event list
   returns the empty dict, modelled as none; both ratios are guarded on
   active_days > 0 with default 0. -/
structure ProductivityMetrics where
  total_events : Nat
  active_days : Nat
  daily_average_events : Rat
  total_commits : Nat
  commits_per_day : Rat
deriving Repr, DecidableEq

def calculate_productivity_metrics (u : UserData) : Option ProductivityMetrics :=
  match u.events with
  | [] => none
  | _ =>
      let active_days := u.contributions.active_days.length
      let daily_average : Rat :=
        if active_days > 0 then (u.events.length : Rat) / (active_days : Rat) else 0
      let push_events := u.events.filter fun e => e.type = "PushEvent"
      let total_commits := (push_events.map fun e => e.payloadCommits.length).sum
      some { total_events := u.events.length
             active_days := active_days
             daily_average_events := round2 daily_average
             total_commits := total_commits
             commits_per_day :=
               if active_days > 0 then round2 ((total_commits : Rat) / (active_days : Rat))
               else 0 }

/- PatternAnalyzer.analyze_patterns.  The time sub-report is built first, so
   a parse error aborts before any other sub-report exists. -/
structure PatternReport where
  time_patterns : TimePatterns
  activity_patterns : ActivityPatterns
  repository_patterns : Option RepositoryPatterns
  language_patterns : LanguagePatterns
  collaboration_patterns : CollaborationPatterns
  productivity_metrics : Option ProductivityMetrics
deriving Repr, DecidableEq

def analyze_patterns (u : UserData) : Except DataFormatError PatternReport :=
  match analyze_time_patterns u.events with
  | .error e => .error e
  | .ok tp =>
      .ok { time_patterns := tp
            activity_patterns := analyze_activity_patterns u.events
            repository_patterns := analyze_repository_patterns u.repositories
            language_patterns := analyze_language_patterns u.repositories
            collaboration_patterns := analyze_collaboration_patterns u.events
            productivity_metrics := calculate_productivity_metrics u }

/- InsightGenerator supporting accessors.  patterns.get('productivity_metrics', {})
   and friends: the key is always present in an analyzer report, so only the
   inner .get defaults matter; an empty sub-dict makes every inner .get
   return its default. -/
def metricsActiveDays (p : PatternReport) : Nat :=
  (p.productivity_metrics.map fun m => m.active_days).getD 0

def metricsTotalEvents (p : PatternReport) : Nat :=
  (p.productivity_metrics.map fun m => m.total_events).getD 0

def metricsDailyAverage (p : PatternReport) : Rat :=
  (p.productivity_metrics.map fun m => m.daily_average_events).getD 0

def metricsCommitsPerDay (p : PatternReport) : Rat :=
  (p.productivity_metrics.map fun m => m.commits_per_day).getD 0

def repoTotalRepositories (p : PatternReport) : Nat :=
  (p.repository_patterns.map fun r => r.total_repositories).getD 0

def repoTotalStars (p : PatternReport) : Nat :=
  (p.repository_patterns.map fun r => r.total_stars).getD 0

def repoAverageStars (p : PatternReport) : Rat :=
  (p.repository_patterns.map fun r => r.average_stars).getD 0

/- InsightGenerator._generate_summary.  The f-string renders the int values
   with str(); primary_language is always a present key, so the 'Unknown'
   default is dead and a None value renders as the text None. -/
def generate_summary (p : PatternReport) : String :=
  let primary :=
    match p.language_patterns.primary_language with
    | some l => l
    | none => "None"
  "Developer has been active for " ++ toString (metricsActiveDays p) ++ " days with " ++
    toString (metricsTotalEvents p) ++ " total events. " ++
    "Primary language is " ++ primary ++ " " ++
    "with " ++ toString (repoTotalRepositories p) ++ " repositories."

/- InsightGenerator._get_time_period. -/
def get_time_period (hour : Nat) : String :=
  if 5 ≤ hour ∧ hour < 12 then "morning"
  else if 12 ≤ hour ∧ hour < 17 then "afternoon"
  else if 17 ≤ hour ∧ hour < 21 then "evening"
  else "night"

/- InsightGenerator._generate_time_insights.  `if most_active_day:` is a
   truthiness test, so an empty string would also be skipped. -/
def generate_time_insights (p : PatternReport) : List String :=
  let l1 :=
    match p.time_patterns.peak_hours with
    | [] => []
    | h :: _ =>
        ["Most active during " ++ get_time_period h.hour ++ " hours (around " ++
          toString h.hour ++ ":00)"]
  let l2 :=
    match p.time_patterns.most_active_day with
    | some d => if d = "" then [] else ["Most productive on " ++ d ++ "s"]
    | none => []
  l1 ++ l2

def lookupCount (k : String) (dist : List (String × Nat)) : Option Nat :=
  (dist.find? fun p => p.1 = k).map fun p => p.2

/- The push-percentage ratio of _generate_activity_insights, with its
   explicit total > 0 guard defaulting to 0. -/
def pushPercentage (pushCount : Nat) (dist : List (String × Nat)) : Rat :=
  let total : Nat := (dist.map fun p => p.2).sum
  if total > 0 then (pushCount : Rat) / (total : Rat) * 100 else 0

/- InsightGenerator._generate_activity_insights. -/
def generate_activity_insights (p : PatternReport) : List String :=
  let dist := p.activity_patterns.event_type_distribution
  let l1 :=
    match lookupCount "PushEvent" dist with
    | some pushCount =>
        ["Pushes code frequently (" ++ fmtFixed1 (pushPercentage pushCount dist) ++
          "% of activity)"]
    | none => []
  let l2 :=
    if (lookupCount "PullRequestEvent" dist).isSome then
      ["Actively participates in code reviews via pull requests"]
    else []
  let l3 :=
    if (lookupCount "IssuesEvent" dist).isSome then
      ["Engages in issue tracking and project management"]
    else []
  let l4 :=
    if p.activity_patterns.activity_diversity > 5 then
      ["Shows diverse contribution patterns across multiple activity types"]
    else []
  l1 ++ l2 ++ l3 ++ l4

/- InsightGenerator._generate_language_insights.  The trending intersection
   is a Python set whose iteration order is hash-seed dependent; it is
   modelled in the first-seen order of the language distribution, which no
   claim depends on. -/
def trendingLanguages : List String := ["Rust", "Go", "TypeScript", "Kotlin"]

def joinCommaSep : List String → String
  | [] => ""
  | [x] => x
  | x :: xs => x ++ ", " ++ joinCommaSep xs

def generate_language_insights (p : PatternReport) : List String :=
  let diversity := p.language_patterns.language_diversity
  let l1 :=
    match p.language_patterns.primary_language with
    | some l => if l = "" then [] else ["Primary expertise in " ++ l]
    | none => []
  let l2 :=
    if diversity > 5 then
      ["Polyglot developer with experience in " ++ toString diversity ++ " languages"]
    else if diversity > 3 then
      ["Works with multiple languages (" ++ toString diversity ++ " total)"]
    else []
  let used :=
    (p.language_patterns.language_distribution.map fun q => q.1).filter
      fun l => l ∈ trendingLanguages
  let l3 :=
    if used.isEmpty then [] else ["Adopts modern languages: " ++ joinCommaSep used]
  l1 ++ l2 ++ l3

/- InsightGenerator._generate_productivity_insights. -/
def generate_productivity_insights (p : PatternReport) : List String :=
  let daily_avg := metricsDailyAverage p
  let l1 :=
    if daily_avg > 10 then ["Extremely active developer with high daily engagement"]
    else if daily_avg > 5 then ["Maintains consistent daily activity"]
    else if daily_avg > 2 then ["Regular contributor with steady activity"]
    else []
  let commits_per_day := metricsCommitsPerDay p
  let l2 :=
    if commits_per_day > 5 then
      ["High commit frequency (" ++ fmtFixed1 commits_per_day ++ " commits/day)"]
    else []
  let total_stars := repoTotalStars p
  let l3 :=
    if total_stars > 100 then
      ["Creates popular projects (" ++ toString total_stars ++ " total stars)"]
    else []
  l1 ++ l2 ++ l3

/- InsightGenerator._generate_recommendations: three threshold rules, then
   one unconditional documentation recommendation. -/
def generate_recommendations (p : PatternReport) : List String :=
  let r1 :=
    if metricsActiveDays p < 30 then
      ["Consider maintaining more consistent activity for better project momentum"]
    else []
  let r2 :=
    if p.language_patterns.language_diversity < 3 then
      ["Explore additional programming languages to broaden your skill set"]
    else []
  let r3 :=
    if p.collaboration_patterns.collaboration_frequency < 10 then
      ["Increase collaboration through code reviews and pull requests"]
    else []
  r1 ++ r2 ++ r3 ++
    ["Continue documenting your projects to increase visibility and adoption"]

/- InsightGenerator.generate_insights as called from the route, with
   user_data=None, so no prediction or profile entry is added. -/
structure Insights where
  summary : String
  time_insights : List String
  activity_insights : List String
  language_insights : List String
  productivity_insights : List String
  recommendations : List String
deriving Repr, DecidableEq

def generate_insights (p : PatternReport) : Insights :=
  { summary := generate_summary p
    time_insights := generate_time_insights p
    activity_insights := generate_activity_insights p
    language_insights := generate_language_insights p
    productivity_insights := generate_productivity_insights p
    recommendations := generate_recommendations p }

/- ActivityPredictor._predict_event_type. -/
structure EventPrediction where
  event_type : String
  confidence : Rat
deriving Repr, DecidableEq

def predict_event_type (p : PatternReport) : Option EventPrediction :=
  let dist := p.activity_patterns.event_type_distribution
  match pyMaxBySnd dist with
  | none => none
  | some mc =>
      some { event_type := mc.1
             confidence := (mc.2 : Rat) / (((dist.map fun q => q.2).sum : Nat) : Rat) }

/- ActivityPredictor._predict_active_time. -/
structure ActiveTimePrediction where
  most_likely_hour : Option Nat
  peak_hours : List Nat
deriving Repr, DecidableEq

def predict_active_time (p : PatternReport) : Option ActiveTimePrediction :=
  match p.time_patterns.peak_hours with
  | [] => none
  | h :: _ =>
      some { most_likely_hour := some h.hour
             peak_hours := p.time_patterns.peak_hours.map fun q => q.hour }

/- ActivityPredictor._analyze_productivity_trend and _get_trend_description. -/
def trendTag (daily_avg : Rat) : String :=
  if daily_avg > 10 then "highly_active"
  else if daily_avg > 5 then "moderately_active"
  else if daily_avg > 2 then "occasionally_active"
  else "low_activity"

def get_trend_description (trend : String) : String :=
  if trend = "highly_active" then
    "User shows very high engagement with consistent daily activity"
  else if trend = "moderately_active" then
    "User maintains regular activity with good consistency"
  else if trend = "occasionally_active" then
    "User contributes periodically with moderate engagement"
  else if trend = "low_activity" then
    "User shows minimal activity, possibly inactive or new account"
  else "Unknown activity pattern"

structure ProductivityTrend where
  trend : String
  daily_average : Rat
  description : String
deriving Repr, DecidableEq

def analyze_productivity_trend (p : PatternReport) : ProductivityTrend :=
  let daily_avg := metricsDailyAverage p
  { trend := trendTag daily_avg
    daily_average := daily_avg
    description := get_trend_description (trendTag daily_avg) }

/- DeveloperProfiler._determine_expertise_level: the capped score and its
   threshold table. -/
def expertiseScore (repo_count total_stars diversity : Nat) : Rat :=
  min ((repo_count : Rat) / 10) 3 + min ((total_stars : Rat) / 100) 3 +
    min ((diversity : Rat) / 3) 2

def expertiseLevelOfScore (score : Rat) : String :=
  if score ≥ 6 then "expert"
  else if score ≥ 4 then "intermediate"
  else if score ≥ 2 then "beginner"
  else "novice"

def determine_expertise_level (p : PatternReport) : String :=
  expertiseLevelOfScore
    (expertiseScore (repoTotalRepositories p) (repoTotalStars p)
      p.language_patterns.language_diversity)

/- DeveloperProfiler._determine_specialization. -/
def determine_specialization (primary_lang : Option String) : String :=
  match primary_lang with
  | some "Python" => "Data Science/Backend Development"
  | some "JavaScript" => "Web Development"
  | some "TypeScript" => "Modern Web Development"
  | some "Java" => "Enterprise/Android Development"
  | some "Go" => "Systems/Backend Development"
  | some "Rust" => "Systems Programming"
  | some "C++" => "Systems/Game Development"
  | some "Ruby" => "Web Development"
  | some "PHP" => "Web Development"
  | _ => "General Development"

/- DeveloperProfiler._determine_collaboration_style. -/
def determine_collaboration_style (p : PatternReport) : String :=
  let collab_freq := p.collaboration_patterns.collaboration_frequency
  if collab_freq > 50 then "highly_collaborative"
  else if collab_freq > 20 then "team_player"
  else if collab_freq > 5 then "occasional_collaborator"
  else "solo_developer"

/- DeveloperProfiler._determine_project_focus. -/
def determine_project_focus (p : PatternReport) : String :=
  if repoAverageStars p > 50 then "quality_focused"
  else if repoTotalRepositories p > 50 then "quantity_focused"
  else "balanced"

/- DeveloperProfiler._measure_consistency. -/
def measure_consistency (p : PatternReport) : String :=
  if metricsActiveDays p > 60 ∧ metricsDailyAverage p > 3 then "very_consistent"
  else if metricsActiveDays p > 30 ∧ metricsDailyAverage p > 2 then "consistent"
  else if metricsActiveDays p > 15 then "moderately_consistent"
  else "sporadic"

/- DeveloperProfiler.create_profile. -/
structure DeveloperProfile where
  expertise_level : String
  primary_language : Option String
  specialization : String
  collaboration_style : String
  project_focus : String
  activity_consistency : String
deriving Repr, DecidableEq

def create_profile (p : PatternReport) : DeveloperProfile :=
  { expertise_level := determine_expertise_level p
    primary_language := p.language_patterns.primary_language
    specialization := determine_specialization p.language_patterns.primary_language
    collaboration_style := determine_collaboration_style p
    project_focus := determine_project_focus p
    activity_consistency := measure_consistency p }

/- utils.validate_github_username.  The character test c.isalnum() is
   Unicode-aware in Python, so the classification is a parameter; '--' in s
   is a substring test, which for a two-hyphen needle is the existence of
   two adjacent hyphens. -/
def containsDoubleHyphen : List Char → Bool
  | [] => false
  | [_] => false
  | a :: b :: rest => (a = '-' && b = '-') || containsDoubleHyphen (b :: rest)

def validate_github_username (isalnum : Char → Bool) (s : List Char) : Bool :=
  if s.isEmpty then false
  else if s.length > 39 then false
  else if s.head? = some '-' ∨ s.getLast? = some '-' then false
  else if containsDoubleHyphen s then false
  else s.all fun c => isalnum c || c = '-'

/- The analyze route of app.py: a raised analysis error is caught and turned
   into a single error payload; otherwise the full data, patterns and
   insights are returned. -/
inductive ApiResponse where
  | success (data : UserData) (patterns : PatternReport) (insights : Insights)
  | failure (error : String)
deriving Repr, DecidableEq

def analyze_activity (u : UserData) : ApiResponse :=
  match analyze_patterns u with
  | .error e => .failure e.message
  | .ok patterns => .success u patterns (generate_insights patterns)

/- Spec-side shape of the fixed timestamp format YYYY-MM-DDTHH:MM:SSZ as the
   specification words it: exactly twenty characters, ASCII digits in the
   date and time positions, and the literal separators in between.  This is
   the comparison point for the parser actually run by the code. -/
def matchesFixedFormat (s : String) : Bool :=
  let cs := s.data
  cs.length = 20 &&
    ((List.range 20).all fun i =>
      match cs.get? i with
      | some c =>
          if i = 4 ∨ i = 7 then c = '-'
          else if i = 10 then c = 'T'
          else if i = 13 ∨ i = 16 then c = ':'
          else if i = 19 then c = 'Z'
          else c.isDigit
      | none => false)

/- Concrete inputs used by the claim theorems. -/
def emptyUserData : UserData :=
  { events := [], repositories := [], contributions := { active_days := [] } }

def evTue : Event :=
  { type := "PushEvent", created_at := "2024-01-02T14:30:00Z", repoName := none,
    payloadCommits := [] }

def uTue : UserData :=
  { events := [evTue], repositories := [],
    contributions := { active_days := ["2024-01-02"] } }

/- The pattern report of uTue, written out for the C8 witness. -/
def rTue : PatternReport :=
  { time_patterns :=
      { hour_distribution := [(14, 1)]
        day_distribution := [("Tuesday", 1)]
        peak_hours := [{ hour := 14, count := 1 }]
        most_active_day := some "Tuesday" }
    activity_patterns :=
      { event_type_distribution := [("PushEvent", 1)]
        most_common_activity := some ("PushEvent", 1)
        activity_diversity := 1 }
    repository_patterns := none
    language_patterns :=
      { language_distribution := [], primary_language := none,
        language_diversity := 0 }
    collaboration_patterns :=
      { collaborative_repos := [], collaboration_frequency := 0,
        most_collaborated_repo := none }
    productivity_metrics :=
      some { total_events := 1, active_days := 1,
             daily_average_events := round2 (((1 : Nat) : Rat) / ((1 : Nat) : Rat)),
             total_commits := 0,
             commits_per_day := round2 (((0 : Nat) : Rat) / ((1 : Nat) : Rat)) } }

/- Ten events on one active day: a daily average of exactly 10. -/
def u10 : UserData :=
  { events := List.replicate 10 evTue, repositories := [],
    contributions := { active_days := ["2024-01-02"] } }

def mkStarRepo (n : String) (st : Nat) : Repository :=
  { name := n, stargazers_count := st, forks_count := 0, language := none,
    updated_at := "2024-01-01T00:00:00Z" }

/- An event whose created_at is accepted by strptime although it does not
   have the fixed 4-2-2-2-2-2 digit shape. -/
def evLenient : Event :=
  { type := "PushEvent", created_at := "2026-1-2T5:6:7Z", repoName := none,
    payloadCommits := [] }

def uLenient : UserData :=
  { events := [evLenient], repositories := [],
    contributions := { active_days := [] } }

def evBad : Event :=
  { type := "PushEvent", created_at := "not-a-date", repoName := none,
    payloadCommits := [] }

def uBad : UserData :=
  { events := [evBad], repositories := [], contributions := { active_days := [] } }

/- One event but an empty active-day set: the zero-denominator case of the
   productivity ratios. -/
def uGuard : UserData :=
  { events := [evTue], repositories := [], contributions := { active_days := [] } }

/- Report literals exercising the expertise boundary rows. -/
def pExpert : PatternReport :=
  { time_patterns :=
      { hour_distribution := [], day_distribution := [], peak_hours := [],
        most_active_day := none }
    activity_patterns :=
      { event_type_distribution := [], most_common_activity := none,
        activity_diversity := 0 }
    repository_patterns :=
      some { total_repositories := 30, total_stars := 300, total_forks := 0,
             average_stars := 10, most_starred_repos := [], recently_updated := [] }
    language_patterns :=
      { language_distribution := [], primary_language := none,
        language_diversity := 9 }
    collaboration_patterns :=
      { collaborative_repos := [], collaboration_frequency := 0,
        most_collaborated_repo := none }
    productivity_metrics := none }

def pNovice : PatternReport :=
  { time_patterns :=
      { hour_distribution := [], day_distribution := [], peak_hours := [],
        most_active_day := none }
    activity_patterns :=
      { event_type_distribution := [], most_common_activity := none,
        activity_diversity := 0 }
    repository_patterns := none
    language_patterns :=
      { language_distribution := [], primary_language := none,
        language_diversity := 0 }
    collaboration_patterns :=
      { collaborative_repos := [], collaboration_frequency := 0,
        most_collaborated_repo := none }
    productivity_metrics := none }

/- Properties of the stable descending insertion sort: permutation,
   descending sortedness, and stability expressed as preservation of the
   sublist at each key value. -/
theorem mem_insertDesc {α β : Type} [LinearOrder β] (key : α → β) (x a : α)
    (l : List α) : a ∈ insertDesc key x l ↔ a = x ∨ a ∈ l := by
  induction l with
  | nil => simp [insertDesc]
  | cons y ys ih =>
      by_cases h : key x < key y
      · simp only [insertDesc, if_pos h, List.mem_cons, ih]
        tauto
      · simp only [insertDesc, if_neg h, List.mem_cons]

theorem insertDesc_perm {α β : Type} [LinearOrder β] (key : α → β) (x : α)
    (l : List α) : List.Perm (insertDesc key x l) (x :: l) := by
  induction l with
  | nil => simp [insertDesc]
  | cons y ys ih =>
      by_cases h : key x < key y
      · simp only [insertDesc, if_pos h]
        exact (ih.cons y).trans (List.Perm.swap x y ys)
      · simp [insertDesc, if_neg h]

theorem sortDesc_perm {α β : Type} [LinearOrder β] (key : α → β) (l : List α) :
    List.Perm (sortDesc key l) l := by
  induction l with
  | nil => simp [sortDesc]
  | cons x xs ih =>
      exact (insertDesc_perm key x (sortDesc key xs)).trans (ih.cons x)

theorem pairwise_insertDesc {α β : Type} [LinearOrder β] (key : α → β) (x : α)
    (l : List α) (hl : l.Pairwise fun a b => key b ≤ key a) :
    (insertDesc key x l).Pairwise fun a b => key b ≤ key a := by
  induction l with
  | nil => simp [insertDesc]
  | cons y ys ih =>
      rcases List.pairwise_cons.mp hl with ⟨hy, hys⟩
      by_cases h : key x < key y
      · simp only [insertDesc, if_pos h]
        refine List.pairwise_cons.mpr ⟨?_, ih hys⟩
        intro z hz
        rcases (mem_insertDesc key x z ys).mp hz with rfl | hzys
        · exact le_of_lt h
        · exact hy z hzys
      · simp only [insertDesc, if_neg h]
        refine List.pairwise_cons.mpr ⟨?_, hl⟩
        intro z hz
        rcases List.mem_cons.mp hz with rfl | hzys
        · exact not_lt.mp h
        · exact le_trans (hy z hzys) (not_lt.mp h)

theorem sortDesc_pairwise {α β : Type} [LinearOrder β] (key : α → β)
    (l : List α) : (sortDesc key l).Pairwise fun a b => key b ≤ key a := by
  induction l with
  | nil => simp [sortDesc]
  | cons x xs ih => exact pairwise_insertDesc key x (sortDesc key xs) ih

theorem filter_insertDesc {α β : Type} [LinearOrder β] (key : α → β) (x : α)
    (v : β) (l : List α) :
    (insertDesc key x l).filter (fun y => key y = v) =
      if key x = v then x :: l.filter (fun y => key y = v)
      else l.filter (fun y => key y = v) := by
  induction l with
  | nil => by_cases hx : key x = v <;> simp [insertDesc, List.filter_cons, hx]
  | cons y ys ih =>
      by_cases h : key x < key y
      · have step : insertDesc key x (y :: ys) = y :: insertDesc key x ys := by
          simp only [insertDesc, if_pos h]
        by_cases hx : key x = v
        · have hy : ¬ key y = v := by
            intro hyv
            rw [hx] at h
            rw [hyv] at h
            exact lt_irrefl v h
          rw [step, List.filter_cons, if_pos hx]
          simp only [decide_eq_true_eq, hy, ite_false, if_false]
          rw [ih, if_pos hx, List.filter_cons]
          simp [hy]
        · rw [step, List.filter_cons, if_neg hx, ih, if_neg hx, List.filter_cons]
      · have step : insertDesc key x (y :: ys) = x :: y :: ys := by
          simp only [insertDesc, if_neg h]
        rw [step, List.filter_cons]
        by_cases hx : key x = v
        · simp [hx, List.filter_cons]
        · simp [hx, List.filter_cons]

theorem sortDesc_filter {α β : Type} [LinearOrder β] (key : α → β) (v : β)
    (l : List α) :
    (sortDesc key l).filter (fun y => key y = v) =
      l.filter (fun y => key y = v) := by
  induction l with
  | nil => simp [sortDesc]
  | cons x xs ih =>
      simp only [sortDesc, filter_insertDesc, ih, List.filter_cons]
      by_cases hx : key x = v
      · simp [hx]
      · simp [hx]

theorem foldl_pickMax_decomp {α : Type} (xs : List (α × Nat)) :
    ∀ b : α × Nat, ∃ l1 l2,
      b :: xs = l1 ++ (xs.foldl pickMax b) :: l2 ∧
      (∀ y ∈ l1, y.2 < (xs.foldl pickMax b).2) ∧
      (∀ y ∈ l2, y.2 ≤ (xs.foldl pickMax b).2) ∧
      (∀ y ∈ b :: xs, y.2 ≤ (xs.foldl pickMax b).2) := by
  induction xs with
  | nil =>
      intro b
      exact ⟨[], [], by simp, by simp, by simp, by simp⟩
  | cons y ys ih =>
      intro b
      have step : (y :: ys).foldl pickMax b = ys.foldl pickMax (pickMax b y) :=
        rfl
      by_cases h : y.2 > b.2
      · have hb : pickMax b y = y := by simp [pickMax, h]
        obtain ⟨l1, l2, heq, h1, h2, h3⟩ := ih y
        rw [step, hb]
        refine ⟨b :: l1, l2, ?_, ?_, h2, ?_⟩
        · rw [List.cons_append, ← heq]
        · intro z hz
          rcases List.mem_cons.mp hz with rfl | hz1
          · exact lt_of_lt_of_le h (h3 y (List.mem_cons_self y ys))
          · exact h1 z hz1
        · intro z hz
          rcases List.mem_cons.mp hz with rfl | hz1
          · exact le_of_lt (lt_of_lt_of_le h (h3 y (List.mem_cons_self y ys)))
          · exact h3 z hz1
      · have hb : pickMax b y = b := by simp [pickMax, h]
        have hyb : y.2 ≤ b.2 := not_lt.mp h
        obtain ⟨l1, l2, heq, h1, h2, h3⟩ := ih b
        rw [step, hb]
        cases l1 with
        | nil =>
            simp only [List.nil_append] at heq
            injection heq with hbr hys
            refine ⟨[], y :: l2, ?_, by simp, ?_, ?_⟩
            · rw [List.nil_append, ← hbr, ← hys]
            · intro z hz
              rcases List.mem_cons.mp hz with rfl | hz1
              · exact le_trans hyb (h3 _ (List.mem_cons_self _ ys))
              · exact h2 z hz1
            · intro z hz
              rcases List.mem_cons.mp hz with rfl | hz1
              · exact h3 _ (List.mem_cons_self _ ys)
              · rcases List.mem_cons.mp hz1 with rfl | hz2
                · exact le_trans hyb (h3 _ (List.mem_cons_self _ ys))
                · exact h3 z (List.mem_cons_of_mem _ hz2)
        | cons a t =>
            rw [List.cons_append] at heq
            injection heq with hba hys
            have hbr : b.2 < (ys.foldl pickMax b).2 := by
              have ha := h1 a (List.mem_cons_self a t)
              rw [← hba] at ha
              exact ha
            refine ⟨b :: y :: t, l2, ?_, ?_, h2, ?_⟩
            · rw [List.cons_append, List.cons_append, ← hys]
            · intro z hz
              rcases List.mem_cons.mp hz with rfl | hz1
              · exact hbr
              · rcases List.mem_cons.mp hz1 with rfl | hz2
                · exact lt_of_le_of_lt hyb hbr
                · exact h1 z (List.mem_cons_of_mem a hz2)
            · intro z hz
              rcases List.mem_cons.mp hz with rfl | hz1
              · exact h3 _ (List.mem_cons_self _ ys)
              · rcases List.mem_cons.mp hz1 with rfl | hz2
                · exact le_trans hyb (h3 _ (List.mem_cons_self _ ys))
                · exact h3 z (List.mem_cons_of_mem _ hz2)

theorem find?_eq_some_of_split {α : Type} (p : α → Bool) (r : α) :
    ∀ l1 l2 : List α, (∀ y ∈ l1, p y = false) → p r = true →
      (l1 ++ r :: l2).find? p = some r := by
  intro l1
  induction l1 with
  | nil =>
      intro l2 _ hr
      simp [List.find?, hr]
  | cons a t ih =>
      intro l2 h1 hr
      have ha : p a = false := h1 a (List.mem_cons_self a t)
      simp only [List.cons_append, List.find?, ha]
      exact ih l2 (fun y hy => h1 y (List.mem_cons_of_mem a hy)) hr

/- The Python max over an association list is the first entry attaining the
   maximal count. -/
theorem pyMaxBySnd_eq_find? {α : Type} (l : List (α × Nat)) :
    pyMaxBySnd l = l.find? fun x => l.all fun y => y.2 ≤ x.2 := by
  cases l with
  | nil => rfl
  | cons b xs =>
      obtain ⟨l1, l2, heq, h1, h2, h3⟩ := foldl_pickMax_decomp xs b
      have hmemr : xs.foldl pickMax b ∈ b :: xs := by
        rw [heq]
        exact List.mem_append_right l1 (List.mem_cons_self _ l2)
      have hpy : pyMaxBySnd (b :: xs) = some (xs.foldl pickMax b) := rfl
      rw [hpy]
      set P := fun x : α × Nat => (b :: xs).all fun y => decide (y.2 ≤ x.2) with hP
      rw [heq]
      symm
      apply find?_eq_some_of_split
      · intro y hy
        have hy2 : y.2 < (xs.foldl pickMax b).2 := h1 y hy
        rw [hP]
        show ((b :: xs).all fun q => decide (q.2 ≤ y.2)) = false
        rw [Bool.eq_false_iff]
        intro hall
        rw [List.all_eq_true] at hall
        have hc := hall (xs.foldl pickMax b) hmemr
        simp only [decide_eq_true_eq] at hc
        omega
      · rw [hP]
        show ((b :: xs).all fun q => decide (q.2 ≤ (xs.foldl pickMax b).2)) = true
        rw [List.all_eq_true]
        intro z hz
        simp only [decide_eq_true_eq]
        exact h3 z hz

theorem pyMaxBySnd_mem_max {α : Type} (l : List (α × Nat)) (m : α × Nat)
    (h : pyMaxBySnd l = some m) : m ∈ l ∧ ∀ q ∈ l, q.2 ≤ m.2 := by
  rw [pyMaxBySnd_eq_find?] at h
  refine ⟨List.mem_of_find?_eq_some h, ?_⟩
  have := List.find?_some h
  simp only [List.all_eq_true, decide_eq_true_eq] at this
  exact this

/- Every count in an insertion-ordered frequency map is at least 1. -/
theorem bump_count_pos {α : Type} [DecidableEq α] (k : α) :
    ∀ l : List (α × Nat), (∀ q ∈ l, 1 ≤ q.2) → ∀ q ∈ bump k l, 1 ≤ q.2 := by
  intro l
  induction l with
  | nil =>
      intro _ q hq
      simp only [bump, List.mem_singleton] at hq
      simp [hq]
  | cons a t ih =>
      intro hl q hq
      by_cases hk : a.1 = k
      · rcases a with ⟨a1, n⟩
        simp only [bump, if_pos hk, List.mem_cons] at hq
        rcases hq with rfl | hq
        · omega
        · exact hl q (List.mem_cons_of_mem _ hq)
      · rcases a with ⟨a1, n⟩
        simp only [bump, if_neg hk, List.mem_cons] at hq
        rcases hq with rfl | hq
        · exact hl (a1, n) (List.mem_cons_self _ _)
        · exact ih (fun q hq => hl q (List.mem_cons_of_mem _ hq)) q hq

theorem countAll_count_pos {α : Type} [DecidableEq α] (ks : List α) :
    ∀ q ∈ countAll ks, 1 ≤ q.2 := by
  have main : ∀ (ks : List α) (acc : List (α × Nat)), (∀ q ∈ acc, 1 ≤ q.2) →
      ∀ q ∈ ks.foldl (fun a k => bump k a) acc, 1 ≤ q.2 := by
    intro ks
    induction ks with
    | nil => intro acc hacc; simpa using hacc
    | cons k kt ih =>
        intro acc hacc
        exact ih (bump k acc) (bump_count_pos k acc hacc)
  exact main ks [] (by simp)

/- A malformed event anywhere in the list makes the time-pattern pass fail. -/
theorem buildTimeDists_error (ev : Event)
    (hparse : parseTimestamp ev.created_at = none) :
    ∀ (evts : List Event) (hd : List (Nat × Nat)) (dd : List (String × Nat)),
      ev ∈ evts → ∃ e, buildTimeDists evts hd dd = .error e := by
  intro evts
  induction evts with
  | nil => intro hd dd hmem; exact absurd hmem (List.not_mem_nil ev)
  | cons e rest ih =>
      intro hd dd hmem
      cases hp : parseTimestamp e.created_at with
      | none => exact ⟨⟨e.created_at⟩, by simp [buildTimeDists, hp]⟩
      | some t =>
          have hev : ev ∈ rest := by
            rcases List.mem_cons.mp hmem with rfl | hm
            · rw [hparse] at hp; exact absurd hp (by simp)
            · exact hm
          obtain ⟨er, her⟩ := ih (bump t.hour hd)
            (bump (weekdayName t.year t.month t.day) dd) hev
          exact ⟨er, by simp [buildTimeDists, hp, her]⟩

/- Exact rounding facts used to evaluate the pipeline at concrete inputs. -/
theorem roundHalfEven_intCast (n : Int) : roundHalfEven ((n : Rat)) = n := by
  unfold roundHalfEven
  simp only [Int.floor_intCast, sub_self]
  rw [if_pos (by norm_num : (0 : Rat) < 1 / 2)]

theorem round2_intCast (n : Int) : round2 ((n : Rat)) = (n : Rat) := by
  unfold round2
  have h : ((n : Rat)) * 100 = (((n * 100 : Int)) : Rat) := by push_cast; ring
  rw [h, roundHalfEven_intCast]
  push_cast
  ring

theorem round2_natCast (n : Nat) : round2 ((n : Rat)) = (n : Rat) := by
  have h := round2_intCast (n : Int)
  push_cast at h
  exact h

/-- Claim C1, counterexample: on the empty dataset every conditional
recommendation threshold fires at zero, so generate_insights emits the
consistency, diversification and collaboration recommendations ahead of the
unconditional documentation recommendation; the list is not the single
documentation entry the claim states. -/
theorem c1_counterexample :
    (analyze_patterns emptyUserData).map
        (fun r => (generate_insights r).recommendations) =
      Except.ok
        ["Consider maintaining more consistent activity for better project momentum",
         "Explore additional programming languages to broaden your skill set",
         "Increase collaboration through code reviews and pull requests",
         "Continue documenting your projects to increase visibility and adoption"] ∧
    (["Consider maintaining more consistent activity for better project momentum",
      "Explore additional programming languages to broaden your skill set",
      "Increase collaboration through code reviews and pull requests",
      "Continue documenting your projects to increase visibility and adoption"] :
        List String) ≠
      ["Continue documenting your projects to increase visibility and adoption"] := by
  refine ⟨rfl, by decide⟩

/-- Claim C1, amended: for the empty event and repository lists the
insight report's recommendations are exactly the three zero-triggered
threshold recommendations followed by the unconditional documentation
recommendation, and the summary states zero active days and zero total
events (with the None primary language rendered verbatim). -/
theorem c1_empty_insights :
    (analyze_patterns emptyUserData).map
        (fun r => ((generate_insights r).summary, (generate_insights r).recommendations)) =
      Except.ok
        ("Developer has been active for 0 days with 0 total events. Primary language is None with 0 repositories.",
         ["Consider maintaining more consistent activity for better project momentum",
          "Explore additional programming languages to broaden your skill set",
          "Increase collaboration through code reviews and pull requests",
          "Continue documenting your projects to increase visibility and adoption"]) := rfl

/-- Claim C9: the pattern aggregation and the insight composition are pure
functions of their input, so two runs on the same immutable input give
identical output. -/
theorem c9_determinism :
    (∀ (u : UserData) (r1 r2 : Except DataFormatError PatternReport),
      analyze_patterns u = r1 → analyze_patterns u = r2 → r1 = r2) ∧
    (∀ (p : PatternReport) (i1 i2 : Insights),
      generate_insights p = i1 → generate_insights p = i2 → i1 = i2) :=
  ⟨fun _ _ _ h1 h2 => by rw [← h1, ← h2],
   fun _ _ _ h1 h2 => by rw [← h1, ← h2]⟩

/-- Claim C6: the repository aggregation returns the empty report (none) for
an empty repository list, so the consumer-visible average_stars defaults to
0 there, and for star counts 10, 20, 30 the average is exactly 20. -/
theorem c6_repository_aggregation :
    analyze_repository_patterns [] = none ∧
    ((analyze_repository_patterns []).map fun r => r.average_stars).getD 0 = 0 ∧
    (analyze_repository_patterns
        [mkStarRepo "a" 10, mkStarRepo "b" 20, mkStarRepo "c" 30]).map
      (fun r => r.average_stars) = some 20 := by
  refine ⟨rfl, rfl, ?_⟩
  have hbase :
      (analyze_repository_patterns
          [mkStarRepo "a" 10, mkStarRepo "b" 20, mkStarRepo "c" 30]).map
        (fun r => r.average_stars) = some (((60 : Nat) : Rat) / ((3 : Nat) : Rat)) := rfl
  rw [hbase]
  norm_num

/-- Claim C2: the productivity trend partitions the daily average through the
ordered strict thresholds 10, 5, 2 into the four tags, and the pipeline run
on ten events over one active day, a daily average of exactly 10.0, lands on
moderately_active rather than highly_active. -/
theorem c2_trend_thresholds :
    (∀ p : PatternReport,
      (metricsDailyAverage p > 10 →
        (analyze_productivity_trend p).trend = "highly_active") ∧
      (metricsDailyAverage p ≤ 10 → metricsDailyAverage p > 5 →
        (analyze_productivity_trend p).trend = "moderately_active") ∧
      (metricsDailyAverage p ≤ 5 → metricsDailyAverage p > 2 →
        (analyze_productivity_trend p).trend = "occasionally_active") ∧
      (metricsDailyAverage p ≤ 2 →
        (analyze_productivity_trend p).trend = "low_activity")) ∧
    trendTag 10 = "moderately_active" ∧
    trendTag 10 ≠ "highly_active" ∧
    (analyze_patterns u10).map (fun r => metricsDailyAverage r) = Except.ok 10 ∧
    (analyze_patterns u10).map (fun r => (analyze_productivity_trend r).trend) =
      Except.ok "moderately_active" := by
  have hval : round2 (((10 : Nat) : Rat) / ((1 : Nat) : Rat)) = 10 := by
    have hd : (((10 : Nat) : Rat) / ((1 : Nat) : Rat)) = ((10 : Nat) : Rat) := by
      push_cast
      norm_num
    rw [hd, round2_natCast]
    norm_num
  have htag : ∀ d : Rat, d ≤ 10 → d > 5 → trendTag d = "moderately_active" := by
    intro d h10 h5
    unfold trendTag
    rw [if_neg (not_lt.mpr h10), if_pos h5]
  refine ⟨?_, ?_, ?_, ?_, ?_⟩
  · intro p
    refine ⟨?_, ?_, ?_, ?_⟩
    · intro h
      show trendTag (metricsDailyAverage p) = "highly_active"
      unfold trendTag
      rw [if_pos h]
    · intro h10 h5
      exact htag _ h10 h5
    · intro h5 h2
      show trendTag (metricsDailyAverage p) = "occasionally_active"
      unfold trendTag
      rw [if_neg (not_lt.mpr (le_trans h5 (by norm_num))), if_neg (not_lt.mpr h5),
        if_pos h2]
    · intro h2
      show trendTag (metricsDailyAverage p) = "low_activity"
      unfold trendTag
      rw [if_neg (not_lt.mpr (le_trans h2 (by norm_num))),
        if_neg (not_lt.mpr (le_trans h2 (by norm_num))),
        if_neg (not_lt.mpr h2)]
  · exact htag 10 (le_refl 10) (by norm_num)
  · intro h
    have := htag 10 (le_refl 10) (by norm_num)
    rw [h] at this
    exact absurd this (by decide)
  · have hbase : (analyze_patterns u10).map (fun r => metricsDailyAverage r) =
        Except.ok (round2 (((10 : Nat) : Rat) / ((1 : Nat) : Rat))) := rfl
    rw [hbase, hval]
  · have hbase : (analyze_patterns u10).map
        (fun r => (analyze_productivity_trend r).trend) =
        Except.ok (trendTag (round2 (((10 : Nat) : Rat) / ((1 : Nat) : Rat)))) := rfl
    rw [hbase, hval]
    exact congrArg Except.ok (htag 10 (le_refl 10) (by norm_num))

/-- Claim C4: the expertise level is the threshold image of the capped score
min(repo_count/10, 3) + min(total_stars/100, 3) + min(diversity/3, 2); the
combination (30, 300, 9) scores 8 and classifies as expert, and (0, 0, 0)
scores 0 and classifies as novice. -/
theorem c4_expertise_levels :
    (∀ rc ts d : Nat,
      expertiseScore rc ts d =
        min ((rc : Rat) / 10) 3 + min ((ts : Rat) / 100) 3 + min ((d : Rat) / 3) 2) ∧
    (∀ p : PatternReport,
      determine_expertise_level p =
        expertiseLevelOfScore
          (expertiseScore (repoTotalRepositories p) (repoTotalStars p)
            p.language_patterns.language_diversity)) ∧
    (∀ s : Rat,
      (6 ≤ s → expertiseLevelOfScore s = "expert") ∧
      (4 ≤ s → s < 6 → expertiseLevelOfScore s = "intermediate") ∧
      (2 ≤ s → s < 4 → expertiseLevelOfScore s = "beginner") ∧
      (s < 2 → expertiseLevelOfScore s = "novice")) ∧
    expertiseScore 30 300 9 = 8 ∧
    determine_expertise_level pExpert = "expert" ∧
    expertiseScore 0 0 0 = 0 ∧
    determine_expertise_level pNovice = "novice" := by
  have hscore30 : expertiseScore 30 300 9 = 8 := by
    unfold expertiseScore
    push_cast
    rw [min_def, min_def, min_def]
    norm_num
  have hscore0 : expertiseScore 0 0 0 = 0 := by
    unfold expertiseScore
    push_cast
    rw [min_def, min_def, min_def]
    norm_num
  refine ⟨fun rc ts d => rfl, fun p => rfl, ?_, hscore30, ?_, hscore0, ?_⟩
  · intro s
    refine ⟨?_, ?_, ?_, ?_⟩
    · intro h6
      unfold expertiseLevelOfScore
      rw [if_pos h6]
    · intro h4 h6
      unfold expertiseLevelOfScore
      rw [if_neg (not_le.mpr h6), if_pos h4]
    · intro h2 h4
      unfold expertiseLevelOfScore
      rw [if_neg (not_le.mpr (lt_of_lt_of_le h4 (by norm_num))),
        if_neg (not_le.mpr h4), if_pos h2]
    · intro h2
      unfold expertiseLevelOfScore
      rw [if_neg (not_le.mpr (lt_of_lt_of_le h2 (by norm_num))),
        if_neg (not_le.mpr (lt_of_lt_of_le h2 (by norm_num))),
        if_neg (not_le.mpr h2)]
  · show expertiseLevelOfScore (expertiseScore 30 300 9) = "expert"
    rw [hscore30]
    unfold expertiseLevelOfScore
    rw [if_pos (by norm_num : (6 : Rat) ≤ 8)]
  · show expertiseLevelOfScore (expertiseScore 0 0 0) = "novice"
    rw [hscore0]
    unfold expertiseLevelOfScore
    rw [if_neg (by norm_num), if_neg (by norm_num), if_neg (by norm_num)]

/-- Claim C7: every ratio in the pipeline is guarded on its denominator:
with zero active days both productivity ratios are the documented default 0
(shown also on a concrete one-event dataset with no active days), the push
percentage is 0 when the distribution total is 0, and the event-type
prediction is none on an empty distribution. -/
theorem c7_zero_denominator_guards :
    (∀ u : UserData, u.contributions.active_days.length = 0 →
      ∀ m : ProductivityMetrics, calculate_productivity_metrics u = some m →
        m.daily_average_events = 0 ∧ m.commits_per_day = 0) ∧
    ((calculate_productivity_metrics uGuard).map
        (fun m => (m.daily_average_events, m.commits_per_day))) = some (0, 0) ∧
    (∀ (c : Nat) (dist : List (String × Nat)), (dist.map fun q => q.2).sum = 0 →
      pushPercentage c dist = 0) ∧
    (∀ p : PatternReport, p.activity_patterns.event_type_distribution = [] →
      predict_event_type p = none) := by
  have hguard : ∀ u : UserData, u.contributions.active_days.length = 0 →
      ∀ m : ProductivityMetrics, calculate_productivity_metrics u = some m →
        m.daily_average_events = 0 ∧ m.commits_per_day = 0 := by
    intro u h0 m hm
    unfold calculate_productivity_metrics at hm
    rcases hev : u.events with _ | ⟨e, es⟩
    · rw [hev] at hm
      exact absurd hm (by simp)
    · rw [hev, h0] at hm
      simp only [gt_iff_lt, lt_irrefl, if_false] at hm
      have hm2 := (Option.some.injEq _ _).mp hm
      rw [← hm2]
      constructor
      · have : round2 (0 : Rat) = 0 := by
          have h := round2_natCast 0
          push_cast at h
          simpa using h
        simpa using this
      · rfl
  refine ⟨hguard, ?_, ?_, ?_⟩
  · obtain ⟨m, hm⟩ : ∃ m, calculate_productivity_metrics uGuard = some m :=
      ⟨_, rfl⟩
    obtain ⟨h1, h2⟩ := hguard uGuard rfl m hm
    rw [hm]
    simp [h1, h2]
  · intro c dist h
    unfold pushPercentage
    rw [h]
    simp
  · intro p hp
    unfold predict_event_type
    rw [hp]
    simp [pyMaxBySnd]

/-- Claim C5, counterexample: the string 2026-1-2T5:6:7Z does not match the
fixed YYYY-MM-DDTHH:MM:SSZ shape, yet strptime accepts its one-digit fields,
so the analysis succeeds instead of failing with a format error. -/
theorem c5_counterexample :
    matchesFixedFormat "2026-1-2T5:6:7Z" = false ∧
    parseTimestamp "2026-1-2T5:6:7Z" =
      some { year := 2026, month := 1, day := 2, hour := 5, minute := 6, second := 7 } ∧
    (analyze_patterns uLenient).toOption.isSome = true := by
  refine ⟨by decide, by decide, rfl⟩

/-- Claim C5, amended: an event whose created_at the strptime format
%Y-%m-%dT%H:%M:%SZ rejects (the parser also tolerates one-digit
month, day, hour, minute and second fields) makes the whole analysis fail
with a propagated format error: the event is not skipped, no pattern report
is produced, and the route returns a single error payload. -/
theorem c5_malformed_timestamp_fatal :
    ∀ (u : UserData) (ev : Event), ev ∈ u.events →
      parseTimestamp ev.created_at = none →
      ∃ err : DataFormatError, analyze_patterns u = .error err ∧
        analyze_activity u = .failure err.message := by
  intro u ev hmem hp
  obtain ⟨err, herr⟩ := buildTimeDists_error ev hp u.events [] [] hmem
  refine ⟨err, ?_, ?_⟩
  · unfold analyze_patterns analyze_time_patterns
    rw [herr]
  · unfold analyze_activity analyze_patterns analyze_time_patterns
    rw [herr]

/-- Claim C5 witness: the amended theorem applied to a dataset holding one
event with an unparseable created_at string. -/
theorem c5_malformed_timestamp_fatal_witness :
    ∃ err : DataFormatError, analyze_patterns uBad = .error err ∧
      analyze_activity uBad = .failure err.message :=
  c5_malformed_timestamp_fatal uBad evBad (List.mem_singleton.mpr rfl) rfl

/-- Claim C3: for every successfully parsed event sequence the peak hours
are the first three entries of the stable descending-by-count ordering of
the insertion-ordered hour histogram (a permutation of the histogram,
sorted on counts, preserving the histogram's first-seen order inside each
count class), and the most active day is the first weekday entry attaining
the maximal count; the single Tuesday 14:30 event gives peak_hours
[{hour 14, count 1}] and most_active_day Tuesday. -/
theorem c3_time_patterns :
    (∀ (events : List Event) (tp : TimePatterns),
      analyze_time_patterns events = .ok tp →
      ∃ sorted : List (Nat × Nat),
        List.Perm sorted tp.hour_distribution ∧
        sorted.Pairwise (fun a b => b.2 ≤ a.2) ∧
        (∀ n : Nat, sorted.filter (fun q => q.2 = n) =
          tp.hour_distribution.filter fun q => q.2 = n) ∧
        tp.peak_hours = (sorted.take 3).map (fun q => { hour := q.1, count := q.2 }) ∧
        tp.most_active_day =
          (tp.day_distribution.find? fun q =>
            tp.day_distribution.all fun r => r.2 ≤ q.2).map (fun q => q.1)) ∧
    (analyze_patterns uTue).map
        (fun r => (r.time_patterns.peak_hours, r.time_patterns.most_active_day)) =
      Except.ok ([{ hour := 14, count := 1 }], some "Tuesday") := by
  constructor
  · intro events tp h
    unfold analyze_time_patterns at h
    rcases hb : buildTimeDists events [] [] with e | pr
    · rw [hb] at h
      simp at h
    · obtain ⟨hd, dd⟩ := pr
      rw [hb] at h
      simp only [Except.ok.injEq] at h
      subst h
      refine ⟨sortDesc (fun q => q.2) hd, ?_, ?_, ?_, rfl, ?_⟩
      · exact sortDesc_perm _ _
      · exact sortDesc_pairwise _ _
      · intro n
        exact sortDesc_filter (fun q => q.2) n hd
      · show (pyMaxBySnd dd).map (fun p => p.1) = _
        rw [pyMaxBySnd_eq_find?]
  · rfl

/-- Claim C8: on any analyzed report, an empty event-type distribution gives
no prediction, and a non-empty one yields the first maximal entry as the
likely next event type with confidence count divided by the total, a value
between 0 and 1. -/
theorem c8_event_prediction :
    ∀ (u : UserData) (r : PatternReport), analyze_patterns u = .ok r →
      (r.activity_patterns.event_type_distribution = [] →
        predict_event_type r = none) ∧
      (r.activity_patterns.event_type_distribution ≠ [] →
        ∃ m : String × Nat,
          m ∈ r.activity_patterns.event_type_distribution ∧
          (∀ q ∈ r.activity_patterns.event_type_distribution, q.2 ≤ m.2) ∧
          predict_event_type r =
            some { event_type := m.1,
                   confidence := (m.2 : Rat) /
                     ((((r.activity_patterns.event_type_distribution.map
                          fun q => q.2).sum : Nat)) : Rat) } ∧
          0 ≤ (m.2 : Rat) /
              ((((r.activity_patterns.event_type_distribution.map
                   fun q => q.2).sum : Nat)) : Rat) ∧
          (m.2 : Rat) /
              ((((r.activity_patterns.event_type_distribution.map
                   fun q => q.2).sum : Nat)) : Rat) ≤ 1) := by
  intro u r h
  have hact : r.activity_patterns = analyze_activity_patterns u.events := by
    unfold analyze_patterns at h
    rcases ht : analyze_time_patterns u.events with e | tp
    · rw [ht] at h
      simp at h
    · rw [ht] at h
      simp only [Except.ok.injEq] at h
      rw [← h]
  constructor
  · intro hemp
    unfold predict_event_type
    rw [hemp]
    simp [pyMaxBySnd]
  · intro hne
    rcases hmc : pyMaxBySnd r.activity_patterns.event_type_distribution with _ | m
    · exfalso
      rcases hl : r.activity_patterns.event_type_distribution with _ | ⟨x, xs⟩
      · exact hne hl
      · rw [hl] at hmc
        simp [pyMaxBySnd] at hmc
    · obtain ⟨hmem, hmax⟩ := pyMaxBySnd_mem_max _ m hmc
      have hcnt : 1 ≤ m.2 := by
        have hmem2 : m ∈ countAll (u.events.map fun e => e.type) := by
          rw [hact] at hmem
          simpa [analyze_activity_patterns] using hmem
        exact countAll_count_pos (u.events.map fun e => e.type) m hmem2
      have hsum : m.2 ≤ ((r.activity_patterns.event_type_distribution.map
          fun q => q.2).sum : Nat) := by
        exact List.single_le_sum (fun x _ => Nat.zero_le x) m.2
          (List.mem_map_of_mem (fun q => q.2) hmem)
      have hsumpos : 0 < ((r.activity_patterns.event_type_distribution.map
          fun q => q.2).sum : Nat) := by omega
      refine ⟨m, hmem, hmax, ?_, ?_, ?_⟩
      · simp only [predict_event_type]
        rw [hmc]
      · apply div_nonneg
        · exact_mod_cast Nat.zero_le m.2
        · exact_mod_cast Nat.zero_le _
      · rw [div_le_one (by exact_mod_cast hsumpos)]
        exact_mod_cast hsum

/-- Claim C8 witness: the theorem evaluated on the one-event dataset uTue,
whose distribution is the single entry (PushEvent, 1). -/
theorem c8_event_prediction_witness :
    ∃ m : String × Nat,
      m ∈ rTue.activity_patterns.event_type_distribution ∧
      (∀ q ∈ rTue.activity_patterns.event_type_distribution, q.2 ≤ m.2) ∧
      predict_event_type rTue =
        some { event_type := m.1,
               confidence := (m.2 : Rat) /
                 ((((rTue.activity_patterns.event_type_distribution.map
                      fun q => q.2).sum : Nat)) : Rat) } ∧
      0 ≤ (m.2 : Rat) /
          ((((rTue.activity_patterns.event_type_distribution.map
               fun q => q.2).sum : Nat)) : Rat) ∧
      (m.2 : Rat) /
          ((((rTue.activity_patterns.event_type_distribution.map
               fun q => q.2).sum : Nat)) : Rat) ≤ 1 :=
  (c8_event_prediction uTue rTue rfl).2 (by decide)

theorem containsDoubleHyphen_eq_false (s : List Char) :
    containsDoubleHyphen s = false ↔
      ∀ i : Nat, ¬(s.get? i = some '-' ∧ s.get? (i + 1) = some '-') := by
  induction s with
  | nil =>
      simp only [containsDoubleHyphen]
      constructor
      · intro _ i
        simp
      · intro _
        trivial
  | cons a t ih =>
      cases t with
      | nil =>
          simp only [containsDoubleHyphen]
          constructor
          · intro _ i
            cases i <;> simp
          · intro _
            trivial
      | cons b t2 =>
          rw [containsDoubleHyphen]
          rw [Bool.or_eq_false_iff]
          rw [ih]
          constructor
          · rintro ⟨h1, h2⟩ i
            cases i with
            | zero =>
                simp only [List.get?_cons_zero, List.get?_cons_succ]
                rintro ⟨ha, hb⟩
                have ha2 : a = '-' := Option.some.inj ha
                have hb2 : b = '-' := Option.some.inj hb
                rw [ha2, hb2] at h1
                simp at h1
            | succ j =>
                simp only [List.get?_cons_succ]
                exact h2 j
          · intro h
            constructor
            · by_cases ha : a = '-'
              · by_cases hb : b = '-'
                · exfalso
                  apply h 0
                  constructor
                  · rw [List.get?_cons_zero, ha]
                  · rw [List.get?_cons_succ, List.get?_cons_zero, hb]
                · simp [hb]
              · simp [ha]
            · intro j
              have hj := h (j + 1)
              simpa only [List.get?_cons_succ] using hj

/-- Claim C10: validate_github_username accepts exactly the non-empty
strings of at most 39 characters built from alphanumerics and hyphens that
neither start nor end with a hyphen and contain no two adjacent hyphens
(the alphanumeric classifier is a parameter, as Python's isalnum is
Unicode-aware). -/
theorem c10_validate_username :
    ∀ (isalnum : Char → Bool) (s : List Char),
      validate_github_username isalnum s = true ↔
        (s ≠ [] ∧ s.length ≤ 39 ∧ (∀ c ∈ s, isalnum c = true ∨ c = '-') ∧
          s.head? ≠ some '-' ∧ s.getLast? ≠ some '-' ∧
          ∀ i : Nat, ¬(s.get? i = some '-' ∧ s.get? (i + 1) = some '-')) := by
  intro isalnum s
  unfold validate_github_username
  split_ifs with h1 h2 h3 h4
  · simp only [false_iff]
    rintro ⟨hne, -, -, -, -, -⟩
    exact hne (List.isEmpty_iff.mp h1)
  · simp only [false_iff]
    rintro ⟨-, hlen, -, -, -, -⟩
    omega
  · simp only [false_iff]
    rintro ⟨-, -, -, hhead, hlast, -⟩
    rcases h3 with h3 | h3
    · exact hhead h3
    · exact hlast h3
  · simp only [false_iff]
    rintro ⟨-, -, -, -, -, hdd⟩
    rw [(containsDoubleHyphen_eq_false s).mpr hdd] at h4
    exact Bool.false_ne_true h4
  · rw [List.all_eq_true]
    constructor
    · intro hall
      refine ⟨fun he => h1 (by rw [he]; rfl), by omega, ?_, ?_, ?_, ?_⟩
      · intro c hc
        have := hall c hc
        simpa using this
      · intro hh
        exact h3 (Or.inl hh)
      · intro hl
        exact h3 (Or.inr hl)
      · by_contra hcon
        push_neg at hcon
        obtain ⟨i, hi⟩ := hcon
        have hfalse : containsDoubleHyphen s = false := by
          by_cases hb : containsDoubleHyphen s = true
          · exact absurd hb h4
          · exact Bool.eq_false_iff.mpr hb
        exact ((containsDoubleHyphen_eq_false s).mp hfalse i) hi
    · rintro ⟨-, -, hchars, -, -, -⟩
      intro c hc
      have := hchars c hc
      simpa using this
